import Mathlib

/-!
Shallow embedding of the whiteboard widget in src/src/block.tsx.

The widget keeps React state (isDrawing, currentColor, brushSize,
lastPos), draws immediate-mode segments on a canvas 2d context, and
posts a completion message on the effect watching isDrawing.  The
canvas pixel buffer content is modelled as the list of stroke
segments drawn since the last clear; coordinates are rationals since
the scaling math divides by the rendered CSS size.
-/

namespace Whiteboard

/-- Surface-space or client-space coordinates (TS number). -/
structure Point where
  x : ℚ
  y : ℚ
deriving DecidableEq, Repr

/-- Result of canvas.getBoundingClientRect. -/
structure Rect where
  left : ℚ
  top : ℚ
  width : ℚ
  height : ℚ
deriving DecidableEq, Repr

/-- The canvas element: buffer size, on-screen bounding box, and
whether getContext returns a 2d context. -/
structure Canvas where
  width : ℚ
  height : ℚ
  rect : Rect
  hasContext : Bool
deriving DecidableEq, Repr

/-- A pointer or touch input event.  Mouse events carry clientX and
clientY.  Touch events carry the active touch points as a head plus a
tail, since touchstart and touchmove events delivered to the handlers
always carry at least one active touch, and the code reads
touches[0]. -/
inductive InputEvent where
  | mouse (clientX clientY : ℚ)
  | touch (touch0 : Point) (rest : List Point)
deriving DecidableEq, Repr

/-- getContext: canvasRef.current may be null, and getContext may
return null; true iff a 2d context is available. -/
def getContext (canvas : Option Canvas) : Bool :=
  match canvas with
  | none => false
  | some c => c.hasContext

/-- getPosition: client coordinates relative to the bounding box,
scaled per axis by buffer size over rendered size; returns the
sentinel (0, 0) when the canvas is not mounted.  Touch events use the
first active touch point. -/
def getPosition (canvas : Option Canvas) (e : InputEvent) : Point :=
  match canvas with
  | none => ⟨0, 0⟩
  | some c =>
    let scaleX := c.width / c.rect.width
    let scaleY := c.height / c.rect.height
    match e with
    | .mouse cx cy => ⟨(cx - c.rect.left) * scaleX, (cy - c.rect.top) * scaleY⟩
    | .touch t _ => ⟨(t.x - c.rect.left) * scaleX, (t.y - c.rect.top) * scaleY⟩

/-- One stroke segment burned into the buffer: endpoints, strokeStyle,
lineWidth, lineCap and lineJoin at the moment of drawing. -/
structure Segment where
  fromPos : Point
  toPos : Point
  color : String
  lineWidth : ℕ
  cap : String
  join : String
deriving DecidableEq, Repr

/-- The widget state: the four useState variables plus the canvas
buffer content, modelled as the segments drawn since the last
clear. -/
structure BlockState where
  isDrawing : Bool
  currentColor : String
  brushSize : ℕ
  lastPos : Point
  segments : List Segment
deriving DecidableEq, Repr

/-- Initial React state: not drawing, color black, brush 3, last
position (0, 0), blank buffer. -/
def initialState : BlockState :=
  { isDrawing := false
  , currentColor := "#000000"
  , brushSize := 3
  , lastPos := ⟨0, 0⟩
  , segments := [] }

/-- The fixed 15-entry color palette. -/
def colors : List String :=
  [ "#000000", "#FF0000", "#00FF00", "#0000FF", "#FFFF00"
  , "#FF00FF", "#00FFFF", "#FFA500", "#800080", "#008000"
  , "#800000", "#808080", "#FFC0CB", "#A52A2A", "#FFFFFF" ]

/-- Result of an event handler: the new state and whether
preventDefault was called on the event. -/
structure HandlerResult where
  state : BlockState
  preventedDefault : Bool
deriving DecidableEq, Repr

/-- startDrawing: preventDefault, resolve the position, set isDrawing
and record the position as lastPos.  No canvas or context guard. -/
def startDrawing (canvas : Option Canvas) (s : BlockState) (e : InputEvent) :
    HandlerResult :=
  let pos := getPosition canvas e
  { state := { s with isDrawing := true, lastPos := pos }
  , preventedDefault := true }

/-- draw: return untouched if not drawing; otherwise preventDefault,
return if no context, else resolve the position, stroke one segment
from lastPos to it with the current color, width and round cap and
join, and record it as lastPos. -/
def draw (canvas : Option Canvas) (s : BlockState) (e : InputEvent) :
    HandlerResult :=
  if !s.isDrawing then { state := s, preventedDefault := false }
  else if !(getContext canvas) then { state := s, preventedDefault := true }
  else
    let currentPos := getPosition canvas e
    let seg : Segment :=
      { fromPos := s.lastPos
      , toPos := currentPos
      , color := s.currentColor
      , lineWidth := s.brushSize
      , cap := "round"
      , join := "round" }
    { state := { s with segments := s.segments ++ [seg], lastPos := currentPos }
    , preventedDefault := true }

/-- stopDrawing: only resets the isDrawing flag. -/
def stopDrawing (s : BlockState) : BlockState :=
  { s with isDrawing := false }

/-- clearCanvas: if both the context and the canvas are available,
clearRect over the whole buffer wipes it blank; otherwise nothing
happens. -/
def clearCanvas (canvas : Option Canvas) (s : BlockState) : BlockState :=
  match canvas with
  | none => s
  | some c => if c.hasContext then { s with segments := [] } else s

/-- The message posted by the completion effect. -/
structure Message where
  type : String
  blockId : String
  completed : Bool
deriving DecidableEq, Repr

/-- Destination of a postMessage call: the current window or the
parent window. -/
inductive MsgTarget where
  | window
  | parent
deriving DecidableEq, Repr

/-- The literal completion message. -/
def completionMessage : Message :=
  { type := "BLOCK_COMPLETION"
  , blockId := "685334c2157dfa0de308d307"
  , completed := true }

/-- The useEffect watching isDrawing: it reruns exactly when the
dependency changed between renders, and its body posts the completion
message to window and to window.parent when isDrawing is true. -/
def completionEffect (oldDrawing newDrawing : Bool) :
    List (MsgTarget × Message) :=
  if oldDrawing ≠ newDrawing then
    if newDrawing then
      [(.window, completionMessage), (.parent, completionMessage)]
    else []
  else []

/-- The UI event alphabet: mousedown and touchstart both invoke
startDrawing, mousemove and touchmove invoke draw, and mouseup,
mouseleave and touchend all invoke stopDrawing; palette clicks, range
slider changes and the clear button invoke the remaining handlers. -/
inductive Action where
  | pointerDown (e : InputEvent)
  | pointerMove (e : InputEvent)
  | pointerUp
  | selectColor (i : Fin colors.length)
  | setBrush (n : ℕ)
  | clear
deriving DecidableEq

/-- One step of the widget under one UI event. -/
def step (canvas : Option Canvas) (s : BlockState) (a : Action) : BlockState :=
  match a with
  | .pointerDown e => (startDrawing canvas s e).state
  | .pointerMove e => (draw canvas s e).state
  | .pointerUp => stopDrawing s
  | .selectColor i => { s with currentColor := colors.get i }
  | .setBrush n => { s with brushSize := n }
  | .clear => clearCanvas canvas s

/-- The range input has min 1, max 20 and integer step, so the slider
handler only ever receives integers from 1 to 20; every other control
is unconstrained. -/
def validAction : Action → Prop
  | .setBrush n => 1 ≤ n ∧ n ≤ 20
  | _ => True

/-- States the widget can reach from the initial state through UI
events, with an arbitrary canvas environment at each step. -/
inductive Reachable : BlockState → Prop
  | init : Reachable initialState
  | next (c : Option Canvas) (a : Action) (s : BlockState) :
      Reachable s → validAction a → Reachable (step c s a)

/-- Construction props, all optional. -/
structure BlockProps where
  title : Option String
  width : Option ℚ
  height : Option ℚ

/-- Resolved construction configuration. -/
structure BlockConfig where
  title : String
  width : ℚ
  height : ℚ
deriving DecidableEq, Repr

/-- Default resolution of the destructured props. -/
def resolveProps (p : BlockProps) : BlockConfig :=
  { title := p.title.getD "Simple Whiteboard"
  , width := p.width.getD 800
  , height := p.height.getD 600 }

/-- A sample canvas environment used by witnesses: buffer 800 by 600,
rendered at 400 by 300 with the top left corner at (10, 20), with a
2d context available. -/
def sampleCanvas : Canvas :=
  { width := 800, height := 600, rect := ⟨10, 20, 400, 300⟩, hasContext := true }

/-- C6: stopDrawing is idempotent: ending an inactive session is a
no-op, ending twice equals ending once, and stopDrawing only resets
the isDrawing flag, leaving every other component unchanged. -/
theorem stopDrawing_idempotent (s : BlockState) (h : s.isDrawing = false) :
    stopDrawing s = s ∧
    (∀ t : BlockState, stopDrawing (stopDrawing t) = stopDrawing t) ∧
    (∀ t : BlockState, stopDrawing t = { t with isDrawing := false }) := by
  refine ⟨?_, fun t => rfl, fun t => rfl⟩
  cases s
  simp_all [stopDrawing]

/-- Witness for C6 on the initial state, which is not drawing. -/
theorem stopDrawing_idempotent_witness :
    initialState.isDrawing = false ∧ stopDrawing initialState = initialState :=
  ⟨rfl, (stopDrawing_idempotent initialState rfl).1⟩

/-- C7: default construction resolves to an 800 by 600 surface titled
Simple Whiteboard, with initial color black and brush size 3, and each
construction parameter is individually optional with exactly that
default. -/
theorem default_construction (p : BlockProps) :
    resolveProps { title := none, width := none, height := none } =
      { title := "Simple Whiteboard", width := 800, height := 600 } ∧
    initialState.currentColor = "#000000" ∧
    initialState.brushSize = 3 ∧
    (p.title = none → (resolveProps p).title = "Simple Whiteboard") ∧
    (p.width = none → (resolveProps p).width = 800) ∧
    (p.height = none → (resolveProps p).height = 600) := by
  refine ⟨rfl, rfl, rfl, ?_, ?_, ?_⟩ <;> intro h <;> simp [resolveProps, h]

/-- Witness for C7 at the all-defaults props. -/
theorem default_construction_witness :
    (resolveProps { title := none, width := none, height := none }).title =
      "Simple Whiteboard" :=
  (default_construction { title := none, width := none, height := none }).2.2.2.1 rfl

/-- C9: with no canvas mounted, getPosition returns the sentinel
(0, 0), and startDrawing still activates the session with (0, 0)
recorded as the anchor, so the completion effect fires from the idle
state. -/
theorem unavailable_surface_sentinel (s : BlockState) (e : InputEvent) :
    getPosition none e = ⟨0, 0⟩ ∧
    (startDrawing none s e).state =
      { s with isDrawing := true, lastPos := ⟨0, 0⟩ } ∧
    completionEffect false (startDrawing none s e).state.isDrawing =
      [(.window, completionMessage), (.parent, completionMessage)] := by
  exact ⟨rfl, rfl, rfl⟩

/-- C1: with a context available, a move event during an active
session suppresses default handling, appends exactly one segment from
the anchor to the resolved position carrying the current color and
width with round cap and join, and sets the anchor to that position;
with no active session the event is a complete no-op; and selecting a
color or a brush size never alters segments already drawn. -/
theorem draw_extend_spec (canvas : Option Canvas) (s : BlockState)
    (e : InputEvent) (hctx : getContext canvas = true) :
    (s.isDrawing = true →
      draw canvas s e =
        { state :=
            { s with
              segments := s.segments ++
                [{ fromPos := s.lastPos
                 , toPos := getPosition canvas e
                 , color := s.currentColor
                 , lineWidth := s.brushSize
                 , cap := "round"
                 , join := "round" }]
              lastPos := getPosition canvas e }
        , preventedDefault := true }) ∧
    (s.isDrawing = false →
      draw canvas s e = { state := s, preventedDefault := false }) ∧
    (∀ (c : Option Canvas) (t : BlockState) (i : Fin colors.length) (n : ℕ),
      (step c t (.selectColor i)).segments = t.segments ∧
      (step c t (.setBrush n)).segments = t.segments) := by
  refine ⟨?_, ?_, fun c t i n => ⟨rfl, rfl⟩⟩ <;>
    intro h <;> simp [draw, h, hctx]

/-- Witness for C1 on the sample canvas and the initial (idle)
state. -/
theorem draw_extend_spec_witness :
    getContext (some sampleCanvas) = true ∧
    initialState.isDrawing = false ∧
    draw (some sampleCanvas) initialState (.mouse 10 20) =
      { state := initialState, preventedDefault := false } :=
  ⟨rfl, rfl,
    (draw_extend_spec (some sampleCanvas) initialState (.mouse 10 20) rfl).2.1 rfl⟩

/-- C4: the completion effect posts exactly one message to the window
and one to the parent precisely on a transition of isDrawing from
false to true, the message is the literal completion record, and of
all UI events only pointer-down can move isDrawing from false to
true. -/
theorem completion_emission (b b' : Bool) (canvas : Option Canvas)
    (s : BlockState) (e : InputEvent) (i : Fin colors.length) (n : ℕ) :
    completionEffect b b' =
      (if b = false ∧ b' = true then
        [(MsgTarget.window, completionMessage), (MsgTarget.parent, completionMessage)]
       else []) ∧
    completionMessage =
      { type := "BLOCK_COMPLETION"
      , blockId := "685334c2157dfa0de308d307"
      , completed := true } ∧
    (step canvas s (.pointerDown e)).isDrawing = true ∧
    (step canvas s (.pointerMove e)).isDrawing = s.isDrawing ∧
    (step canvas s .pointerUp).isDrawing = false ∧
    (step canvas s (.selectColor i)).isDrawing = s.isDrawing ∧
    (step canvas s (.setBrush n)).isDrawing = s.isDrawing ∧
    (step canvas s .clear).isDrawing = s.isDrawing := by
  refine ⟨?_, rfl, rfl, ?_, rfl, rfl, rfl, ?_⟩
  · cases b <;> cases b' <;> rfl
  · cases hd : s.isDrawing <;> cases hc : getContext canvas <;>
      simp [step, draw, hd, hc]
  · cases canvas with
    | none => rfl
    | some c =>
      cases hc : c.hasContext <;> simp [step, clearCanvas, hc]

/-- C5: with the canvas and its context available, clearing wipes the
surface to blank whatever the prior content, leaves the tool state
and the session state untouched, and its result does not depend on
the prior surface content, so the cleared content cannot be
recovered from the state. -/
theorem clearCanvas_spec (c : Canvas) (s : BlockState)
    (hctx : c.hasContext = true) :
    (clearCanvas (some c) s).segments = [] ∧
    (clearCanvas (some c) s).currentColor = s.currentColor ∧
    (clearCanvas (some c) s).brushSize = s.brushSize ∧
    (clearCanvas (some c) s).isDrawing = s.isDrawing ∧
    (clearCanvas (some c) s).lastPos = s.lastPos ∧
    (∀ segs : List Segment,
      clearCanvas (some c) { s with segments := segs } =
        clearCanvas (some c) s) := by
  refine ⟨?_, ?_, ?_, ?_, ?_, fun segs => ?_⟩ <;> simp [clearCanvas, hctx]

/-- Witness for C5 on the sample canvas and a state with one drawn
segment. -/
theorem clearCanvas_spec_witness :
    sampleCanvas.hasContext = true ∧
    (clearCanvas (some sampleCanvas)
      { initialState with
        segments := [{ fromPos := ⟨0, 0⟩, toPos := ⟨1, 1⟩, color := "#FF0000"
                     , lineWidth := 5, cap := "round", join := "round" }] }).segments
      = [] :=
  ⟨rfl,
    (clearCanvas_spec sampleCanvas
      { initialState with
        segments := [{ fromPos := ⟨0, 0⟩, toPos := ⟨1, 1⟩, color := "#FF0000"
                     , lineWidth := 5, cap := "round", join := "round" }] } rfl).1⟩

/-- C3 counterexample: with no canvas mounted, a pointer-down is not a
no-op: startDrawing changes the state, activating the session. -/
theorem startDrawing_not_noop :
    (startDrawing none initialState (.mouse 5 5)).state ≠ initialState ∧
    (startDrawing none initialState (.mouse 5 5)).state.isDrawing = true := by
  exact ⟨by decide, rfl⟩

/-- C3 amended: when the drawing context is unavailable, stroke draw
and clear are silent no-ops with no state change, and position
resolution with no canvas silently returns the sentinel (0, 0); begin
stroke, however, is unguarded and still activates the session. -/
theorem guarded_ops_noop (canvas : Option Canvas) (s : BlockState)
    (e : InputEvent) (hctx : getContext canvas = false) :
    (draw canvas s e).state = s ∧
    clearCanvas canvas s = s ∧
    (canvas = none → getPosition canvas e = ⟨0, 0⟩) ∧
    (startDrawing canvas s e).state.isDrawing = true := by
  refine ⟨?_, ?_, ?_, rfl⟩
  · cases hd : s.isDrawing <;> simp [draw, hd, hctx]
  · cases canvas with
    | none => rfl
    | some c =>
      simp only [getContext] at hctx
      simp [clearCanvas, hctx]
  · intro h
    subst h
    rfl

/-- Witness for C3 with no canvas mounted. -/
theorem guarded_ops_noop_witness :
    getContext none = false ∧
    (draw none initialState (.mouse 5 5)).state = initialState ∧
    getPosition none (.mouse 5 5) = ⟨0, 0⟩ :=
  ⟨rfl, (guarded_ops_noop none initialState (.mouse 5 5) rfl).1,
    (guarded_ops_noop none initialState (.mouse 5 5) rfl).2.2.1 rfl⟩

/-- C2: with a mounted canvas whose rendered size is positive,
position resolution subtracts the bounding box origin and multiplies
by buffer size over rendered size per axis, a touch event resolves
through its first active touch point the same way, the top left
corner of the rendered surface resolves to (0, 0), and the bottom
right corner resolves to (width, height). -/
theorem getPosition_scaling (c : Canvas) (t0 : Point) (rest : List Point)
    (cx cy : ℚ) (hw : 0 < c.rect.width) (hh : 0 < c.rect.height) :
    getPosition (some c) (.mouse cx cy) =
      ⟨(cx - c.rect.left) * (c.width / c.rect.width),
       (cy - c.rect.top) * (c.height / c.rect.height)⟩ ∧
    getPosition (some c) (.touch t0 rest) =
      ⟨(t0.x - c.rect.left) * (c.width / c.rect.width),
       (t0.y - c.rect.top) * (c.height / c.rect.height)⟩ ∧
    getPosition (some c) (.mouse c.rect.left c.rect.top) = ⟨0, 0⟩ ∧
    getPosition (some c)
      (.mouse (c.rect.left + c.rect.width) (c.rect.top + c.rect.height)) =
      ⟨c.width, c.height⟩ := by
  have hw0 : c.rect.width ≠ 0 := ne_of_gt hw
  have hh0 : c.rect.height ≠ 0 := ne_of_gt hh
  refine ⟨rfl, rfl, ?_, ?_⟩
  · simp [getPosition]
  · simp only [getPosition, Point.mk.injEq]
    constructor <;> field_simp

/-- Witness for C2 on the sample canvas: clicking its top left corner
(10, 20) resolves to (0, 0). -/
theorem getPosition_scaling_witness :
    (0 : ℚ) < sampleCanvas.rect.width ∧
    getPosition (some sampleCanvas) (.mouse 10 20) = ⟨0, 0⟩ :=
  ⟨by decide,
    (getPosition_scaling sampleCanvas ⟨0, 0⟩ [] 0 0 (by decide) (by decide)).2.2.1⟩

/-- C10: resolved positions are never clamped: with positive buffer
and rendered sizes, a mouse event outside the bounding box resolves
outside the box from (0, 0) to (width, height), and during an active
session with a context a move to it draws a segment ending there and
records it as the anchor. -/
theorem no_clamping (c : Canvas) (s : BlockState) (cx cy : ℚ)
    (hw : 0 < c.rect.width) (hh : 0 < c.rect.height)
    (hbw : 0 < c.width) (hbh : 0 < c.height)
    (hctx : getContext (some c) = true)
    (hdraw : s.isDrawing = true)
    (hout : cx < c.rect.left ∨ c.rect.left + c.rect.width < cx ∨
            cy < c.rect.top ∨ c.rect.top + c.rect.height < cy) :
    ((getPosition (some c) (.mouse cx cy)).x < 0 ∨
      c.width < (getPosition (some c) (.mouse cx cy)).x ∨
      (getPosition (some c) (.mouse cx cy)).y < 0 ∨
      c.height < (getPosition (some c) (.mouse cx cy)).y) ∧
    (draw (some c) s (.mouse cx cy)).state.lastPos =
      getPosition (some c) (.mouse cx cy) ∧
    (draw (some c) s (.mouse cx cy)).state.segments =
      s.segments ++
        [{ fromPos := s.lastPos
         , toPos := getPosition (some c) (.mouse cx cy)
         , color := s.currentColor
         , lineWidth := s.brushSize
         , cap := "round"
         , join := "round" }] := by
  have hw0 : c.rect.width ≠ 0 := ne_of_gt hw
  have hh0 : c.rect.height ≠ 0 := ne_of_gt hh
  have hsx : 0 < c.width / c.rect.width := div_pos hbw hw
  have hsy : 0 < c.height / c.rect.height := div_pos hbh hh
  have keyx : c.rect.width * (c.width / c.rect.width) = c.width := by
    field_simp
  have keyy : c.rect.height * (c.height / c.rect.height) = c.height := by
    field_simp
  refine ⟨?_, ?_, ?_⟩
  · simp only [getPosition]
    rcases hout with h | h | h | h
    · exact Or.inl (mul_neg_of_neg_of_pos (by linarith) hsx)
    · refine Or.inr (Or.inl ?_)
      have h2 := mul_lt_mul_of_pos_right
        (show c.rect.width < cx - c.rect.left by linarith) hsx
      rw [keyx] at h2
      exact h2
    · exact Or.inr (Or.inr (Or.inl (mul_neg_of_neg_of_pos (by linarith) hsy)))
    · refine Or.inr (Or.inr (Or.inr ?_))
      have h2 := mul_lt_mul_of_pos_right
        (show c.rect.height < cy - c.rect.top by linarith) hsy
      rw [keyy] at h2
      exact h2
  · simp [draw, hdraw, hctx]
  · simp [draw, hdraw, hctx]

/-- Witness for C10 on the sample canvas with a mouse event left of
the bounding box while drawing. -/
theorem no_clamping_witness :
    (5 : ℚ) < sampleCanvas.rect.left ∧
    (draw (some sampleCanvas) { initialState with isDrawing := true }
        (.mouse 5 20)).state.lastPos =
      getPosition (some sampleCanvas) (.mouse 5 20) :=
  ⟨by decide,
    (no_clamping sampleCanvas { initialState with isDrawing := true } 5 20
      (by decide) (by decide) (by decide) (by decide) rfl rfl
      (Or.inl (by decide))).2.1⟩

/-- C8: in every reachable state the current color is one of the
fixed 15-entry palette and the brush width lies in 1 to 20, selecting
a palette entry sets the color to exactly that entry, and selecting
brush size n sets the width to exactly n. -/
theorem toolstate_invariant (s : BlockState) (h : Reachable s) :
    s.currentColor ∈ colors ∧ 1 ≤ s.brushSize ∧ s.brushSize ≤ 20 ∧
    colors.length = 15 ∧
    (∀ (c : Option Canvas) (t : BlockState) (i : Fin colors.length),
      (step c t (.selectColor i)).currentColor = colors.get i) ∧
    (∀ (c : Option Canvas) (t : BlockState) (n : ℕ),
      (step c t (.setBrush n)).brushSize = n) := by
  have inv : ∀ t : BlockState, Reachable t →
      t.currentColor ∈ colors ∧ 1 ≤ t.brushSize ∧ t.brushSize ≤ 20 := by
    intro t ht
    induction ht with
    | init => exact ⟨by decide, by decide, by decide⟩
    | next c a u hu hv ih =>
      rcases ih with ⟨ic, ib1, ib2⟩
      cases a with
      | pointerDown e => exact ⟨ic, ib1, ib2⟩
      | pointerMove e =>
        cases hd : u.isDrawing <;> cases hc : getContext c <;>
          simp_all [step, draw]
      | pointerUp => exact ⟨ic, ib1, ib2⟩
      | selectColor i => exact ⟨List.get_mem colors i.1 i.2, ib1, ib2⟩
      | setBrush n => exact ⟨ic, hv.1, hv.2⟩
      | clear =>
        cases c with
        | none => exact ⟨ic, ib1, ib2⟩
        | some cc => cases hcc : cc.hasContext <;> simp_all [step, clearCanvas]
  exact ⟨(inv s h).1, (inv s h).2.1, (inv s h).2.2, by decide,
    fun c t i => rfl, fun c t n => rfl⟩

/-- Witness for C8 at the initial state, reachable by construction. -/
theorem toolstate_invariant_witness :
    initialState.currentColor ∈ colors ∧ 1 ≤ initialState.brushSize ∧
      initialState.brushSize ≤ 20 :=
  ⟨(toolstate_invariant initialState Reachable.init).1,
    (toolstate_invariant initialState Reachable.init).2.1,
    (toolstate_invariant initialState Reachable.init).2.2.1⟩

end Whiteboard
